import Mathlib

/-!
Shallow embedding of the reconciliation engine of `src/streamlit_app.py`
(card-journal vs P2P-statement reconciliation).

Modelling conventions:
* decimal amounts are rational numbers;
* calendar dates are integers (day index); the strftime rendering used in
  OUT match keys is abstracted to an injective integer rendering;
* a pandas NA cell is `Option.none`; `pandas.read_csv` already turns the
  literal texts nan/NaN/empty into NA, so a raw statement Auth cell is
  modelled as `Option String`;
* `round` on rationals stands for the Python 2-decimal rounding
  (the half-way tie convention differs, half-up here versus half-even in
  Python; no claim exercises a tie);
* column absence in a DataFrame is a Boolean flag on the frame; reading an
  absent column is a `KeyError`, modelled with `Except`.
-/

namespace Recon

/-- Rounding to two decimal places, as in round(x, 2) at lines 359, 372,
384-387 of the source. -/
def round2 (q : ℚ) : ℚ := ((round (100 * q) : ℤ) : ℚ) / 100

/-- Fee adjustment applied to statement-side IN amounts, line 213 of the
source: x * 0.99 if x > 40 else x. -/
def feeAdjust (x : ℚ) : ℚ := if 40 < x then x * (99 / 100) else x

/-- One regex replacement of a trailing literal ".0", as in
str.replace at line 120 of the source: drop the suffix ".0" when the
text ends with it, otherwise leave the text unchanged. -/
def stripDotZero (s : String) : String :=
  match s.data.reverse with
  | '0' :: '.' :: rest => ⟨rest.reverse⟩
  | _ => s

/-- Statement-side Auth normalization, lines 119-120 of the source:
fillna('') followed by astype(str) followed by the trailing ".0" strip.
`none` is a pandas NA cell (a genuinely missing value, or the literal
texts nan/NaN which read_csv already converts to NA). -/
def normalizeStatementAuth (cell : Option String) : String :=
  match cell with
  | none => ""
  | some s => stripDotZero s

/-- The last `n` characters of a string (helper for the auth extraction). -/
def lastChars (n : Nat) (s : String) : String :=
  ⟨(s.data.reverse.take n).reverse⟩

/-- Number of trailing decimal-digit characters of a string. -/
def trailingDigits (s : String) : Nat :=
  (s.data.reverse.takeWhile Char.isDigit).length

/-- Ledger-side auth extraction, line 104 of the source:
LIBELLE.str.extract applying a regular-expression search for six digits
anchored at the end of the label.  The search succeeds exactly when the
label has at least six characters and its last six characters are all
digits, and the captured group is then those last six characters.
(Labels are assumed free of a trailing newline; digits are ASCII.) -/
def extractAuth (s : String) : Option String :=
  let six := s.data.reverse.take 6
  if six.length = 6 ∧ six.all Char.isDigit then some ⟨six.reverse⟩ else none

/-- Whether the character list `pat` occurs at the head of `l`. -/
def leadsWith : List Char → List Char → Bool
  | [], _ => true
  | _ :: _, [] => false
  | p :: ps, c :: cs => p == c && leadsWith ps cs

/-- Whether the character list `pat` occurs anywhere inside `l`. -/
def hasSub (pat : List Char) : List Char → Bool
  | [] => leadsWith pat []
  | c :: cs => leadsWith pat (c :: cs) || hasSub pat cs

/-- ASCII lower-casing of one character (the marker texts of the source
are ASCII). -/
def lowerChar (c : Char) : Char :=
  if c.isUpper then Char.ofNat (c.toNat + 32) else c

/-- Case-insensitive substring containment, modelling
Series.str.contains(..., case=False) at line 131 of the source. -/
def containsCI (pat s : String) : Bool :=
  hasSub (pat.data.map lowerChar) (s.data.map lowerChar)

/-- Two-decimal rendering of a (nonnegative) amount, modelling the
f-string <amount:.2f> used in the OUT match keys (lines 178, 261). -/
def fmt2 (q : ℚ) : String :=
  let c : ℤ := round (100 * q)
  let ip := c / 100
  let fr := (c % 100).natAbs
  toString ip ++ "." ++ (if fr < 10 then "0" ++ toString fr else toString fr)

/-- OUT match key: date, two-decimal amount and destination account (or
the sentinel MANDAT), lines 176-182 and 259-265 of the source.  The
calendar rendering of the date is abstracted to `toString`. -/
def mkOutKey (d : ℤ) (amt : ℚ) (acct : String) : String :=
  toString d ++ "_" ++ fmt2 amt ++ "_" ++ (if acct = "" then "MANDAT" else acct)

/-- Direction of a reconciliation run. -/
inductive Direction
  | IN
  | OUT
deriving DecidableEq, Repr

/-! ## Parsed input frames -/

/-- One parsed card-journal row after load_card_journal: a day-first date,
a decimal MONTANT and the free-text LIBELLE. -/
structure CJRow where
  date : ℤ
  montant : ℚ
  libelle : String
deriving DecidableEq, Repr

/-- A loaded card journal; `hasLibelle` records whether the LIBELLE column
is present (column absence degrades per the source guards). -/
structure CardDF where
  rows : List CJRow
  hasLibelle : Bool
deriving DecidableEq, Repr

/-- One parsed P2P-statement row after load_p2p_statement.  `auth` is the
already-normalized Auth text; `toAccount` is the optional destination
account cell.  The Amount column is always present (no claim exercises
its absence). -/
structure PRow where
  ptype : String
  date : ℤ
  amount : ℚ
  auth : String
  toAccount : Option ℤ
deriving DecidableEq, Repr

/-- A loaded P2P statement with its column-presence flags. -/
structure PStatementDF where
  rows : List PRow
  hasType : Bool
  hasDate : Bool
  hasAuth : Bool
  hasToAccount : Bool
deriving DecidableEq, Repr

/-! ## Classifier outputs -/

/-- A classified incoming card-journal row (get_in_transactions_card):
the derived Auth key is the extracted code, or the text nan when the
extraction found none (astype(str) of a pandas NaN, line 141). -/
structure CInRow where
  date : ℤ
  montant : ℚ
  libelle : String
  auth : String
deriving DecidableEq, Repr

/-- A classified incoming statement row (get_in_transactions_p2p) with
its fee-adjusted amount. -/
structure PInRow where
  date : ℤ
  amount : ℚ
  adjusted : ℚ
  auth : String
deriving DecidableEq, Repr

/-- A classified outgoing statement row (get_out_transactions_p2p). -/
structure POutRow where
  date : ℤ
  amount : ℚ
  adjusted : ℚ
  toAccount : String
  key : String
deriving DecidableEq, Repr

/-- get_in_transactions_card, lines 125-142 of the source: keep rows dated
on or after the cutoff whose label contains the incoming marker
(case-insensitive) with a positive amount; derive the Auth key.
(The intermediate emptiness early-returns of the source return an empty
frame and are value-equal to continuing with an empty frame.) -/
def getInTransactionsCard (df : CardDF) (fromDate : ℤ) : List CInRow :=
  if df.hasLibelle then
    let filtered := df.rows.filter (fun r => decide (fromDate ≤ r.date))
    let incoming := filtered.filter (fun r => containsCI "Transfert du" r.libelle)
    let incoming := incoming.filter (fun r => decide (0 < r.montant))
    incoming.map (fun r =>
      { date := r.date, montant := r.montant, libelle := r.libelle,
        auth := (extractAuth r.libelle).getD "nan" })
  else []

/-- get_in_transactions_p2p, lines 189-217 of the source.  The Type and
Date column reads are guarded by presence checks; the Auth column read at
line 206 is not, so a frame that still has rows at that point but no Auth
column raises a KeyError. -/
def getInTransactionsP2P (df : PStatementDF) (fromDate : ℤ) :
    Except String (List PInRow) :=
  let deposits := if df.hasType then df.rows.filter (fun r => r.ptype == "DEPOSIT") else df.rows
  if deposits.isEmpty then .ok [] else
  let deposits := if df.hasDate then deposits.filter (fun r => decide (fromDate ≤ r.date)) else deposits
  if deposits.isEmpty then .ok [] else
  if df.hasAuth then
    let deposits := deposits.filter (fun r => r.auth ≠ "")
    if deposits.isEmpty then .ok [] else
    .ok (deposits.map (fun r =>
      { date := r.date, amount := r.amount, adjusted := feeAdjust r.amount,
        auth := r.auth }))
  else .error "KeyError: Auth"

/-- get_out_transactions_p2p, lines 220-269 of the source: keep enabled
WITHDRAWAL/CASHOUT rows on or after the cutoff; the amount is made
positive and the adjusted amount is that same positive amount (no fee);
the destination account falls back to the MANDAT sentinel in the key. -/
def getOutTransactionsP2P (df : PStatementDF) (fromDate : ℤ)
    (includeWithdrawal includeCashout : Bool) : List POutRow :=
  if df.hasType then
    let picked := df.rows.filter (fun r =>
      (includeWithdrawal && (r.ptype == "WITHDRAWAL")) ||
      (includeCashout && (r.ptype == "CASHOUT")))
    let picked := if df.hasDate then picked.filter (fun r => decide (fromDate ≤ r.date)) else picked
    picked.map (fun r =>
      let amt := |r.amount|
      let acct := if df.hasToAccount then
          (match r.toAccount with
           | some n => toString n
           | none => "")
        else ""
      { date := r.date, amount := amt, adjusted := amt, toAccount := acct,
        key := mkOutKey r.date amt acct })
  else []

/-! ## Reconciler -/

/-- A card-side row as consumed by the reconciler: its match key (the Auth
code for IN, the composite key for OUT) and the raw MONTANT. -/
structure CardTx where
  key : String
  montant : ℚ
deriving DecidableEq, Repr

/-- A statement-side row as consumed by the reconciler: its match key, the
raw Amount and the Adjusted_Amount columns. -/
structure P2PTx where
  key : String
  amount : ℚ
  adjusted : ℚ
deriving DecidableEq, Repr

/-- One detail record of a missing-on-one-side table. -/
structure MissingDetail where
  key : String
  amount : ℚ
deriving DecidableEq, Repr

/-- One matched-pair detail record, lines 368-377 of the source. -/
structure MatchedDetail where
  key : String
  p2pAmount : ℚ
  adjustedAmount : ℚ
  cardAmount : ℚ
  difference : ℚ
  status : String
  feeApplied : String
deriving DecidableEq, Repr

/-- The summary block of a reconciliation result. -/
structure Summary where
  cardCount : ℕ
  p2pCount : ℕ
  matched : ℕ
  missingInP2P : ℕ
  missingInCard : ℕ
deriving DecidableEq, Repr

/-- The totals block of a reconciliation result, lines 383-388. -/
structure Totals where
  card : ℚ
  p2p : ℚ
  adjusted : ℚ
  difference : ℚ
deriving DecidableEq, Repr

/-- The full result of reconcile_transactions. -/
structure ReconResult where
  summary : Summary
  missingInP2P : List MissingDetail
  missingInCard : List MissingDetail
  matchedDetails : List MatchedDetail
  discrepancies : List MatchedDetail
  totals : Totals
  missingAmount : ℚ
deriving DecidableEq, Repr

/-- The card-side key list in first-occurrence order (the insertion order
feeding the Python set at line 287). -/
def cardKeyList (cards : List CardTx) : List String :=
  (cards.map CardTx.key).dedup

/-- The statement-side key list in first-occurrence order. -/
def p2pKeyList (rows : List P2PTx) : List String :=
  (rows.map P2PTx.key).dedup

/-- The card-side key set, line 287 of the source. -/
def cardKeySet (cards : List CardTx) : Finset String :=
  (cards.map CardTx.key).toFinset

/-- The statement-side key set, line 288 of the source. -/
def p2pKeySet (rows : List P2PTx) : Finset String :=
  (rows.map P2PTx.key).toFinset

/-- Key-set difference, lines 297-298 of the source. -/
def missingKeys (a b : Finset String) : Finset String := a \ b

/-- Key-set intersection, line 299 of the source. -/
def matchedKeys (a b : Finset String) : Finset String := a ∩ b

/-- The representative card row for a key: the first stored row carrying
it (iloc[0] at line 353). -/
def findCard (cards : List CardTx) (k : String) : Option CardTx :=
  cards.find? (fun r => r.key == k)

/-- The representative statement row for a key (iloc[0] at line 354). -/
def findP2P (rows : List P2PTx) (k : String) : Option P2PTx :=
  rows.find? (fun r => r.key == k)

/-- One matched-pair detail, lines 356-377 of the source. -/
def mkMatchedDetail (dir : Direction) (k : String) (c : CardTx) (p : P2PTx) :
    MatchedDetail :=
  let cardAmt := |c.montant|
  let diff := round2 (cardAmt - p.adjusted)
  { key := k
    p2pAmount := p.amount
    adjustedAmount := round2 p.adjusted
    cardAmount := cardAmt
    difference := diff
    status := if |diff| < 1 / 100 then "OK" else "DIFF"
    feeApplied := if 40 < p.amount ∧ dir = Direction.IN then "Yes" else "No" }

/-- The matched keys visited in ascending order, modelling
sorted(matched) at line 348. -/
def matchedKeyListSorted (cards : List CardTx) (p2p : List P2PTx) : List String :=
  List.insertionSort (· ≤ ·)
    ((cardKeyList cards).filter (fun k => decide (k ∈ p2pKeyList p2p)))

/-- The matched pairs, in sorted key order, pairing each matched key with
its representative row on each side. -/
def matchedPairs (cards : List CardTx) (p2p : List P2PTx) :
    List (String × CardTx × P2PTx) :=
  (matchedKeyListSorted cards p2p).filterMap (fun k =>
    match findCard cards k, findP2P p2p k with
    | some c, some p => some (k, c, p)
    | _, _ => none)

/-- The all-empty early-return result, lines 275-283 of the source. -/
def emptyResult : ReconResult :=
  { summary := ⟨0, 0, 0, 0, 0⟩
    missingInP2P := []
    missingInCard := []
    matchedDetails := []
    discrepancies := []
    totals := ⟨0, 0, 0, 0⟩
    missingAmount := 0 }

/-- The keys missing on the statement side, iterated in first-occurrence
order (the loop at line 316 runs over a Python set whose order the
language leaves unspecified). -/
def missPList (cards : List CardTx) (p2p : List P2PTx) : List String :=
  (cardKeyList cards).filter (fun k => decide (k ∉ p2pKeyList p2p))

/-- The keys missing on the card side, iterated in first-occurrence order
(the loop at line 330). -/
def missCList (cards : List CardTx) (p2p : List P2PTx) : List String :=
  (p2pKeyList p2p).filter (fun k => decide (k ∉ cardKeyList cards))

/-- The missing-in-statement detail rows, lines 316-327: one row per
missing key, surfacing the representative card row with the positive
magnitude of its MONTANT. -/
def missPDetails (cards : List CardTx) (p2p : List P2PTx) : List MissingDetail :=
  (missPList cards p2p).filterMap (fun k =>
    (findCard cards k).map (fun c => MissingDetail.mk k |c.montant|))

/-- The missing-in-card detail rows, lines 330-341: one row per missing
key, surfacing the representative statement row with its raw Amount. -/
def missCDetails (cards : List CardTx) (p2p : List P2PTx) : List MissingDetail :=
  (missCList cards p2p).filterMap (fun k =>
    (findP2P p2p k).map (fun p => MissingDetail.mk k p.amount))

/-- The matched-detail rows, built over the sorted matched keys
(lines 348-378). -/
def matchedDetailsList (dir : Direction) (cards : List CardTx)
    (p2p : List P2PTx) : List MatchedDetail :=
  (matchedPairs cards p2p).map (fun x => mkMatchedDetail dir x.1 x.2.1 x.2.2)

/-- The totals block accumulated over the matched pairs and rounded,
lines 344-363 and 383-388. -/
def totalsOf (cards : List CardTx) (p2p : List P2PTx) : Totals :=
  let pairs := matchedPairs cards p2p
  let totalCard := (pairs.map (fun x => |x.2.1.montant|)).sum
  let totalAdj := (pairs.map (fun x => x.2.2.adjusted)).sum
  { card := round2 totalCard
    p2p := round2 ((pairs.map (fun x => x.2.2.amount)).sum)
    adjusted := round2 totalAdj
    difference := round2 (totalCard - totalAdj) }

/-- The general path of reconcile_transactions (everything after the
all-empty early return). -/
def reconcileCore (dir : Direction) (cards : List CardTx)
    (p2p : List P2PTx) : ReconResult :=
  let details := matchedDetailsList dir cards p2p
  let missP := missPDetails cards p2p
  { summary :=
      { cardCount := cards.length
        p2pCount := p2p.length
        matched := (matchedKeys (cardKeySet cards) (p2pKeySet p2p)).card
        missingInP2P := (missingKeys (cardKeySet cards) (p2pKeySet p2p)).card
        missingInCard := (missingKeys (p2pKeySet p2p) (cardKeySet cards)).card }
    missingInP2P := missP
    missingInCard := missCDetails cards p2p
    matchedDetails := details
    discrepancies := details.filter (fun d => decide ((1 : ℚ) / 100 ≤ |d.difference|))
    totals := totalsOf cards p2p
    missingAmount := if missP.isEmpty then 0
      else (missP.map MissingDetail.amount).sum }

/-- reconcile_transactions, lines 272-395 of the source. -/
def reconcileTransactions (dir : Direction) (cards : List CardTx)
    (p2p : List P2PTx) : ReconResult :=
  if cards.isEmpty ∧ p2p.isEmpty then emptyResult
  else reconcileCore dir cards p2p

/-! ## Supporting lemmas -/

lemma round2_zero : round2 0 = 0 := by simp [round2]

/-- The all-empty early return agrees with the general path, so the two
branches of reconcile_transactions coincide extensionally. -/
lemma reconcile_eq_core (dir : Direction) (cards : List CardTx) (p2p : List P2PTx) :
    reconcileTransactions dir cards p2p = reconcileCore dir cards p2p := by
  unfold reconcileTransactions
  split
  · next h =>
    obtain ⟨h1, h2⟩ := h
    rw [List.isEmpty_iff] at h1 h2
    subst h1; subst h2
    simp [reconcileCore, emptyResult, matchedDetailsList, missPDetails, missCDetails,
      missPList, missCList, matchedPairs, matchedKeyListSorted, cardKeyList, p2pKeyList,
      cardKeySet, p2pKeySet, matchedKeys, missingKeys, totalsOf, round2]
  · rfl

lemma filterMap_map_of_key {α β : Type} (f : α → Option β) (g : β → α) (l : List α)
    (h1 : ∀ x ∈ l, (f x).isSome) (h2 : ∀ x b, f x = some b → g b = x) :
    (l.filterMap f).map g = l := by
  induction l with
  | nil => simp
  | cons a t ih =>
    obtain ⟨b, hb⟩ := Option.isSome_iff_exists.mp (h1 a (by simp))
    rw [List.filterMap_cons, hb, List.map_cons, h2 a b hb,
      ih (fun x hx => h1 x (by simp [hx]))]

lemma filterMap_length_of_key {α β : Type} (f : α → Option β) (g : β → α) (l : List α)
    (h1 : ∀ x ∈ l, (f x).isSome) (h2 : ∀ x b, f x = some b → g b = x) :
    (l.filterMap f).length = l.length := by
  conv_rhs => rw [← filterMap_map_of_key f g l h1 h2]
  simp

lemma findKey_isSome {α : Type} (f : α → String) (l : List α) (k : String)
    (h : k ∈ l.map f) : (l.find? (fun r => f r == k)).isSome := by
  obtain ⟨a, ha, rfl⟩ := List.mem_map.mp h
  rw [List.find?_isSome]
  exact ⟨a, ha, by simp⟩

lemma findCard_isSome {cards : List CardTx} {k : String}
    (h : k ∈ cardKeyList cards) : (findCard cards k).isSome :=
  findKey_isSome CardTx.key cards k (List.mem_dedup.mp h)

lemma findP2P_isSome {p2p : List P2PTx} {k : String}
    (h : k ∈ p2pKeyList p2p) : (findP2P p2p k).isSome :=
  findKey_isSome P2PTx.key p2p k (List.mem_dedup.mp h)

lemma cardKeyList_toFinset (cards : List CardTx) :
    (cardKeyList cards).toFinset = cardKeySet cards := by
  ext k
  simp [cardKeyList, cardKeySet, List.mem_dedup]

lemma p2pKeyList_toFinset (p2p : List P2PTx) :
    (p2pKeyList p2p).toFinset = p2pKeySet p2p := by
  ext k
  simp [p2pKeyList, p2pKeySet, List.mem_dedup]

lemma missPList_nodup (cards : List CardTx) (p2p : List P2PTx) :
    (missPList cards p2p).Nodup :=
  (List.nodup_dedup _).filter _

lemma missCList_nodup (cards : List CardTx) (p2p : List P2PTx) :
    (missCList cards p2p).Nodup :=
  (List.nodup_dedup _).filter _

lemma mem_missPList {cards : List CardTx} {p2p : List P2PTx} {k : String} :
    k ∈ missPList cards p2p ↔ k ∈ cardKeyList cards ∧ k ∉ p2pKeyList p2p := by
  simp [missPList, List.mem_filter]

lemma mem_missCList {cards : List CardTx} {p2p : List P2PTx} {k : String} :
    k ∈ missCList cards p2p ↔ k ∈ p2pKeyList p2p ∧ k ∉ cardKeyList cards := by
  simp [missCList, List.mem_filter]

lemma missPList_toFinset (cards : List CardTx) (p2p : List P2PTx) :
    (missPList cards p2p).toFinset
      = missingKeys (cardKeySet cards) (p2pKeySet p2p) := by
  ext k
  simp [mem_missPList, missingKeys, ← cardKeyList_toFinset, ← p2pKeyList_toFinset]

lemma missCList_toFinset (cards : List CardTx) (p2p : List P2PTx) :
    (missCList cards p2p).toFinset
      = missingKeys (p2pKeySet p2p) (cardKeySet cards) := by
  ext k
  simp [mem_missCList, missingKeys, ← cardKeyList_toFinset, ← p2pKeyList_toFinset]

lemma missPList_length (cards : List CardTx) (p2p : List P2PTx) :
    (missPList cards p2p).length
      = (missingKeys (cardKeySet cards) (p2pKeySet p2p)).card := by
  rw [← missPList_toFinset, List.toFinset_card_of_nodup (missPList_nodup cards p2p)]

lemma missCList_length (cards : List CardTx) (p2p : List P2PTx) :
    (missCList cards p2p).length
      = (missingKeys (p2pKeySet p2p) (cardKeySet cards)).card := by
  rw [← missCList_toFinset, List.toFinset_card_of_nodup (missCList_nodup cards p2p)]

lemma matchedKeyListSorted_perm (cards : List CardTx) (p2p : List P2PTx) :
    List.Perm (matchedKeyListSorted cards p2p)
      ((cardKeyList cards).filter (fun k => decide (k ∈ p2pKeyList p2p))) :=
  List.perm_insertionSort _ _

lemma mem_matchedKeyListSorted {cards : List CardTx} {p2p : List P2PTx} {k : String} :
    k ∈ matchedKeyListSorted cards p2p
      ↔ k ∈ cardKeyList cards ∧ k ∈ p2pKeyList p2p := by
  rw [(matchedKeyListSorted_perm cards p2p).mem_iff]
  simp [List.mem_filter]

lemma matchedKeyListSorted_nodup (cards : List CardTx) (p2p : List P2PTx) :
    (matchedKeyListSorted cards p2p).Nodup :=
  ((List.nodup_dedup _).filter _).perm (matchedKeyListSorted_perm cards p2p).symm

lemma matchedKeyListSorted_toFinset (cards : List CardTx) (p2p : List P2PTx) :
    (matchedKeyListSorted cards p2p).toFinset
      = matchedKeys (cardKeySet cards) (p2pKeySet p2p) := by
  ext k
  simp [mem_matchedKeyListSorted, matchedKeys, ← cardKeyList_toFinset,
    ← p2pKeyList_toFinset]

lemma matchedKeyListSorted_length (cards : List CardTx) (p2p : List P2PTx) :
    (matchedKeyListSorted cards p2p).length
      = (matchedKeys (cardKeySet cards) (p2pKeySet p2p)).card := by
  rw [← matchedKeyListSorted_toFinset,
    List.toFinset_card_of_nodup (matchedKeyListSorted_nodup cards p2p)]

/-- The pairing function of matchedPairs succeeds on every sorted matched
key, and tags the pair with that key. -/
lemma matchedPairs_fun_isSome {cards : List CardTx} {p2p : List P2PTx} {k : String}
    (h : k ∈ matchedKeyListSorted cards p2p) :
    ((fun k => match findCard cards k, findP2P p2p k with
      | some c, some p => some (k, c, p)
      | _, _ => none) k).isSome := by
  obtain ⟨hc, hp⟩ := mem_matchedKeyListSorted.mp h
  obtain ⟨c, hc'⟩ := Option.isSome_iff_exists.mp (findCard_isSome hc)
  obtain ⟨p, hp'⟩ := Option.isSome_iff_exists.mp (findP2P_isSome hp)
  simp [hc', hp']

lemma matchedPairs_map_fst (cards : List CardTx) (p2p : List P2PTx) :
    (matchedPairs cards p2p).map Prod.fst = matchedKeyListSorted cards p2p := by
  refine filterMap_map_of_key _ _ _ (fun k hk => matchedPairs_fun_isSome hk) ?_
  intro k b hb
  cases hc : findCard cards k with
  | none => simp [hc] at hb
  | some c =>
    cases hp : findP2P p2p k with
    | none => simp [hc, hp] at hb
    | some p => simp [hc, hp] at hb; simp [← hb]

lemma matchedPairs_length (cards : List CardTx) (p2p : List P2PTx) :
    (matchedPairs cards p2p).length = (matchedKeyListSorted cards p2p).length := by
  conv_rhs => rw [← matchedPairs_map_fst cards p2p]
  simp

lemma missPDetails_map_key (cards : List CardTx) (p2p : List P2PTx) :
    (missPDetails cards p2p).map MissingDetail.key = missPList cards p2p := by
  refine filterMap_map_of_key _ _ _ ?_ ?_
  · intro k hk
    obtain ⟨c, hc⟩ := Option.isSome_iff_exists.mp
      (findCard_isSome (mem_missPList.mp hk).1)
    simp [hc]
  · intro k b hb
    cases hc : findCard cards k with
    | none => simp [hc] at hb
    | some c => simp [hc] at hb; simp [← hb]

lemma missCDetails_map_key (cards : List CardTx) (p2p : List P2PTx) :
    (missCDetails cards p2p).map MissingDetail.key = missCList cards p2p := by
  refine filterMap_map_of_key _ _ _ ?_ ?_
  · intro k hk
    obtain ⟨p, hp⟩ := Option.isSome_iff_exists.mp
      (findP2P_isSome (mem_missCList.mp hk).1)
    simp [hp]
  · intro k b hb
    cases hp : findP2P p2p k with
    | none => simp [hp] at hb
    | some p => simp [hp] at hb; simp [← hb]

lemma missPDetails_length (cards : List CardTx) (p2p : List P2PTx) :
    (missPDetails cards p2p).length = (missPList cards p2p).length := by
  conv_rhs => rw [← missPDetails_map_key cards p2p]
  simp

lemma missCDetails_length (cards : List CardTx) (p2p : List P2PTx) :
    (missCDetails cards p2p).length = (missCList cards p2p).length := by
  conv_rhs => rw [← missCDetails_map_key cards p2p]
  simp

lemma core_missingInP2P (dir : Direction) (cards : List CardTx) (p2p : List P2PTx) :
    (reconcileCore dir cards p2p).missingInP2P = missPDetails cards p2p := rfl

lemma core_missingInCard (dir : Direction) (cards : List CardTx) (p2p : List P2PTx) :
    (reconcileCore dir cards p2p).missingInCard = missCDetails cards p2p := rfl

lemma core_matchedDetails (dir : Direction) (cards : List CardTx) (p2p : List P2PTx) :
    (reconcileCore dir cards p2p).matchedDetails = matchedDetailsList dir cards p2p :=
  rfl

lemma core_totals (dir : Direction) (cards : List CardTx) (p2p : List P2PTx) :
    (reconcileCore dir cards p2p).totals = totalsOf cards p2p := rfl

lemma core_missingAmount (dir : Direction) (cards : List CardTx) (p2p : List P2PTx) :
    (reconcileCore dir cards p2p).missingAmount
      = (if (missPDetails cards p2p).isEmpty then 0
          else ((missPDetails cards p2p).map MissingDetail.amount).sum) := rfl

lemma matchedDetailsList_map_key (dir : Direction) (cards : List CardTx)
    (p2p : List P2PTx) :
    (matchedDetailsList dir cards p2p).map MatchedDetail.key
      = matchedKeyListSorted cards p2p := by
  show ((matchedPairs cards p2p).map _).map _ = _
  rw [List.map_map]
  have h : (MatchedDetail.key ∘ fun x : String × CardTx × P2PTx =>
      mkMatchedDetail dir x.1 x.2.1 x.2.2) = Prod.fst := by
    funext x; rfl
  rw [h, matchedPairs_map_fst]

/-! ## Claim theorems -/

/-- Claim C3: the reconciler computes missing_in_p2p as the card-side key
set minus the statement-side key set, missing_in_card as the reverse
difference and matched as their intersection (lines 297-299); matched
united with missing_in_p2p recovers the full card-side key set, the three
sets are pairwise disjoint, and the summary counts of every
reconciliation are the cardinalities of these sets. -/
theorem key_set_algebra :
    (∀ a b : Finset String, matchedKeys a b ∪ missingKeys a b = a) ∧
    (∀ a b : Finset String,
      Disjoint (matchedKeys a b) (missingKeys a b) ∧
      Disjoint (matchedKeys a b) (missingKeys b a) ∧
      Disjoint (missingKeys a b) (missingKeys b a)) ∧
    (∀ (dir : Direction) (cards : List CardTx) (p2p : List P2PTx),
      (reconcileTransactions dir cards p2p).summary.matched
          = (matchedKeys (cardKeySet cards) (p2pKeySet p2p)).card ∧
      (reconcileTransactions dir cards p2p).summary.missingInP2P
          = (missingKeys (cardKeySet cards) (p2pKeySet p2p)).card ∧
      (reconcileTransactions dir cards p2p).summary.missingInCard
          = (missingKeys (p2pKeySet p2p) (cardKeySet cards)).card) := by
  refine ⟨?_, ?_, ?_⟩
  · intro a b
    ext k
    simp only [matchedKeys, missingKeys, Finset.mem_union, Finset.mem_inter,
      Finset.mem_sdiff]
    tauto
  · intro a b
    refine ⟨?_, ?_, ?_⟩ <;>
      (rw [Finset.disjoint_left]
       intro k hk hk2
       simp only [matchedKeys, missingKeys, Finset.mem_inter, Finset.mem_sdiff]
         at hk hk2
       tauto)
  · intro dir cards p2p
    rw [reconcile_eq_core]
    exact ⟨rfl, rfl, rfl⟩

/-- Claim C9: for every reconciliation, the detail lists agree with the
summary counts (one surfaced row per missing or matched key), and the
discrepancies list is exactly the sublist of matched details whose
absolute difference is at least 0.01. -/
theorem counts_agree_with_details :
    ∀ (dir : Direction) (cards : List CardTx) (p2p : List P2PTx),
      (reconcileTransactions dir cards p2p).missingInP2P.length
          = (reconcileTransactions dir cards p2p).summary.missingInP2P ∧
      (reconcileTransactions dir cards p2p).missingInCard.length
          = (reconcileTransactions dir cards p2p).summary.missingInCard ∧
      (reconcileTransactions dir cards p2p).matchedDetails.length
          = (reconcileTransactions dir cards p2p).summary.matched ∧
      (reconcileTransactions dir cards p2p).discrepancies
          = (reconcileTransactions dir cards p2p).matchedDetails.filter
              (fun d => decide ((1 : ℚ) / 100 ≤ |d.difference|)) := by
  intro dir cards p2p
  rw [reconcile_eq_core]
  refine ⟨?_, ?_, ?_, rfl⟩
  · show (missPDetails cards p2p).length = _
    rw [missPDetails_length, missPList_length]
    rfl
  · show (missCDetails cards p2p).length = _
    rw [missCDetails_length, missCList_length]
    rfl
  · show (matchedDetailsList dir cards p2p).length = _
    have h : (matchedDetailsList dir cards p2p).length
        = (matchedKeyListSorted cards p2p).length := by
      show ((matchedPairs cards p2p).map _).length = _
      rw [List.length_map, matchedPairs_length]
    rw [h, matchedKeyListSorted_length]
    rfl

/-- Claim C4 counterexample: the two card-side inputs below are
permutations of each other (same rows, different order), yet the
reconciliation surfaces a different matched detail for each, because the
representative row of a duplicated key is the first stored row.  The
result is therefore not deterministic regardless of input row order. -/
theorem order_dependence_counterexample :
    List.Perm [CardTx.mk "111111" 10, CardTx.mk "111111" 20]
      [CardTx.mk "111111" 20, CardTx.mk "111111" 10] ∧
    (reconcileTransactions .IN [CardTx.mk "111111" 10, CardTx.mk "111111" 20]
        [P2PTx.mk "111111" 10 10]).matchedDetails.map MatchedDetail.cardAmount
      = [10] ∧
    (reconcileTransactions .IN [CardTx.mk "111111" 20, CardTx.mk "111111" 10]
        [P2PTx.mk "111111" 10 10]).matchedDetails.map MatchedDetail.cardAmount
      = [20] ∧
    (reconcileTransactions .IN [CardTx.mk "111111" 10, CardTx.mk "111111" 20]
        [P2PTx.mk "111111" 10 10]).matchedDetails.map MatchedDetail.cardAmount
      ≠ (reconcileTransactions .IN [CardTx.mk "111111" 20, CardTx.mk "111111" 10]
        [P2PTx.mk "111111" 10 10]).matchedDetails.map MatchedDetail.cardAmount := by
  exact ⟨by decide, by decide, by decide, by decide⟩

/-- Claim C4 (amended): the reconciliation is a deterministic function of
the two input row lists, the matched-detail list visits keys in sorted
order and covers exactly the matched key set; invariance under input row
reordering, however, does not hold when a side contains duplicate keys
(see the counterexample). -/
theorem matched_details_sorted_deterministic :
    ∀ (dir : Direction) (cards : List CardTx) (p2p : List P2PTx),
      List.Sorted (· ≤ ·)
        ((reconcileTransactions dir cards p2p).matchedDetails.map
          MatchedDetail.key) ∧
      ((reconcileTransactions dir cards p2p).matchedDetails.map
          MatchedDetail.key).toFinset
        = matchedKeys (cardKeySet cards) (p2pKeySet p2p) := by
  intro dir cards p2p
  rw [reconcile_eq_core]
  constructor
  · show List.Sorted _ ((matchedDetailsList dir cards p2p).map MatchedDetail.key)
    rw [matchedDetailsList_map_key]
    exact List.sorted_insertionSort _ _
  · show ((matchedDetailsList dir cards p2p).map MatchedDetail.key).toFinset = _
    rw [matchedDetailsList_map_key, matchedKeyListSorted_toFinset]

/-- Claim C7: the missing-amount figure is the sum of the amounts of the
missing-in-statement detail rows alone; the card and statement totals are
the rounded sums over matched pairs only; and the missing-amount side of
the result depends on the statement input only through its key set, so
missing-in-card rows (whatever their amounts) are never summed into it. -/
theorem missing_amount_one_directional :
    ∀ (dir : Direction) (cards : List CardTx) (p2p : List P2PTx),
      (reconcileTransactions dir cards p2p).missingAmount
          = ((reconcileTransactions dir cards p2p).missingInP2P.map
              MissingDetail.amount).sum ∧
      (reconcileTransactions dir cards p2p).totals.card
          = round2 (((reconcileTransactions dir cards p2p).matchedDetails.map
              MatchedDetail.cardAmount).sum) ∧
      (reconcileTransactions dir cards p2p).totals.p2p
          = round2 (((reconcileTransactions dir cards p2p).matchedDetails.map
              MatchedDetail.p2pAmount).sum) ∧
      (∀ p2pB : List P2PTx, p2pKeyList p2pB = p2pKeyList p2p →
        (reconcileTransactions dir cards p2pB).missingInP2P
            = (reconcileTransactions dir cards p2p).missingInP2P ∧
        (reconcileTransactions dir cards p2pB).missingAmount
            = (reconcileTransactions dir cards p2p).missingAmount) := by
  intro dir cards p2p
  rw [reconcile_eq_core]
  refine ⟨?_, ?_, ?_, ?_⟩
  · rw [core_missingAmount, core_missingInP2P]
    split
    · next h =>
      rw [List.isEmpty_iff] at h
      rw [h]
      simp
    · rfl
  · rw [core_totals, core_matchedDetails]
    have h : (matchedDetailsList dir cards p2p).map MatchedDetail.cardAmount
        = (matchedPairs cards p2p).map (fun x => |x.2.1.montant|) := by
      show ((matchedPairs cards p2p).map _).map _ = _
      rw [List.map_map]
      rfl
    rw [h]
    rfl
  · rw [core_totals, core_matchedDetails]
    have h : (matchedDetailsList dir cards p2p).map MatchedDetail.p2pAmount
        = (matchedPairs cards p2p).map (fun x => x.2.2.amount) := by
      show ((matchedPairs cards p2p).map _).map _ = _
      rw [List.map_map]
      rfl
    rw [h]
    rfl
  · intro p2pB hkeys
    rw [reconcile_eq_core]
    have hmissP : missPDetails cards p2pB = missPDetails cards p2p := by
      unfold missPDetails missPList
      rw [hkeys]
    refine ⟨?_, ?_⟩
    · rw [core_missingInP2P, core_missingInP2P, hmissP]
    · rw [core_missingAmount, core_missingAmount, hmissP]

/-- Claim C7 witness: replacing the statement side by rows with the same
keys but different amounts (7 versus 9) leaves the missing-in-statement
details and the missing-amount figure unchanged. -/
theorem missing_amount_one_directional_witness :
    (reconcileTransactions Direction.IN [CardTx.mk "999999" 25]
        [P2PTx.mk "888888" 9 9]).missingInP2P
      = (reconcileTransactions Direction.IN [CardTx.mk "999999" 25]
        [P2PTx.mk "888888" 7 7]).missingInP2P ∧
    (reconcileTransactions Direction.IN [CardTx.mk "999999" 25]
        [P2PTx.mk "888888" 9 9]).missingAmount
      = (reconcileTransactions Direction.IN [CardTx.mk "999999" 25]
        [P2PTx.mk "888888" 7 7]).missingAmount :=
  (missing_amount_one_directional Direction.IN [CardTx.mk "999999" 25]
    [P2PTx.mk "888888" 7 7]).2.2.2 [P2PTx.mk "888888" 9 9] (by decide)

/-- Claim C1: classified statement-side IN rows carry an adjusted amount
of raw * 0.99 exactly when the raw amount exceeds 40 (strictly) and the
unchanged raw amount otherwise; classified OUT rows always carry an
adjusted amount equal to their (positive) amount; and a matched-pair
detail reports fee_applied = Yes exactly when the direction is IN and the
raw statement-side amount exceeds 40. -/
theorem fee_adjustment_rule :
    (∀ (df : PStatementDF) (fromDate : ℤ) (rows : List PInRow),
      getInTransactionsP2P df fromDate = Except.ok rows →
      ∀ r ∈ rows, (40 < r.amount → r.adjusted = r.amount * (99 / 100)) ∧
        (r.amount ≤ 40 → r.adjusted = r.amount)) ∧
    (∀ (df : PStatementDF) (fromDate : ℤ) (iw ic : Bool),
      ∀ r ∈ getOutTransactionsP2P df fromDate iw ic, r.adjusted = r.amount) ∧
    (∀ (dir : Direction) (cards : List CardTx) (p2p : List P2PTx),
      ∀ d ∈ (reconcileTransactions dir cards p2p).matchedDetails,
        (d.feeApplied = "Yes" ↔ dir = Direction.IN ∧ 40 < d.p2pAmount)) := by
  refine ⟨?_, ?_, ?_⟩
  · intro df fromDate rows h r hr
    obtain ⟨rows0, ht, hd, ha, hta⟩ := df
    simp only [getInTransactionsP2P] at h
    cases ht <;> cases hd <;> cases ha <;>
      simp only [Bool.false_eq_true, reduceIte] at h <;>
      (repeat' split at h) <;>
      first
      | (cases h <;> cases hr)
      | (cases h
         obtain ⟨r0, hmem, rfl⟩ := List.mem_map.mp hr
         refine ⟨fun h40 => ?_, fun hle => ?_⟩
         · show feeAdjust r0.amount = _
           rw [feeAdjust, if_pos h40]
         · show feeAdjust r0.amount = _
           rw [feeAdjust, if_neg (not_lt.mpr hle)])
  · intro df fromDate iw ic r hr
    obtain ⟨rows0, ht, hd, ha, hta⟩ := df
    simp only [getOutTransactionsP2P] at hr
    cases ht <;>
      simp only [Bool.false_eq_true, reduceIte] at hr <;>
      first
      | cases hr
      | (obtain ⟨r0, hmem, rfl⟩ := List.mem_map.mp hr
         rfl)
  · intro dir cards p2p d hd
    rw [reconcile_eq_core, core_matchedDetails] at hd
    obtain ⟨x, _, rfl⟩ := List.mem_map.mp hd
    show (if 40 < x.2.2.amount ∧ dir = Direction.IN then "Yes" else "No") = "Yes" ↔ _
    split
    · next hc => exact iff_of_true rfl ⟨hc.2, hc.1⟩
    · next hc =>
      exact iff_of_false (by decide) (fun hh => hc ⟨hh.2, hh.1⟩)

/-- Claim C1 witness: concrete instances of the three parts of the fee
adjustment rule, at a 100-unit deposit (fee applied), a 100-unit
withdrawal (no adjustment) and a matched IN pair with raw statement
amount 100 (fee flag Yes). -/
theorem fee_adjustment_rule_witness :
    (PInRow.mk 5 100 (feeAdjust 100) "123456").adjusted = (100 : ℚ) * (99 / 100) ∧
    (POutRow.mk 5 |(100 : ℚ)| |(100 : ℚ)| "" (mkOutKey 5 |(100 : ℚ)| "")).adjusted
      = (POutRow.mk 5 |(100 : ℚ)| |(100 : ℚ)| "" (mkOutKey 5 |(100 : ℚ)| "")).amount ∧
    ((mkMatchedDetail Direction.IN "123456" (CardTx.mk "123456" 100)
        (P2PTx.mk "123456" 100 99)).feeApplied = "Yes"
      ↔ Direction.IN = Direction.IN ∧ (40 : ℚ) < 100) := by
  refine ⟨?_, ?_, ?_⟩
  · have h : getInTransactionsP2P
        ⟨[⟨"DEPOSIT", 5, 100, "123456", none⟩], true, true, true, false⟩ 0
        = Except.ok [⟨5, 100, feeAdjust 100, "123456"⟩] := rfl
    exact (fee_adjustment_rule.1 _ 0 _ h _ (List.mem_singleton.mpr rfl)).1
      (by norm_num)
  · have h : getOutTransactionsP2P
        ⟨[⟨"WITHDRAWAL", 5, 100, "", none⟩], true, true, true, false⟩ 0 true true
        = [⟨5, |(100 : ℚ)|, |(100 : ℚ)|, "", mkOutKey 5 |(100 : ℚ)| ""⟩] := rfl
    exact fee_adjustment_rule.2.1 _ 0 true true _
      (by rw [h]; exact List.mem_singleton.mpr rfl)
  · have h : (reconcileTransactions Direction.IN [CardTx.mk "123456" 100]
        [P2PTx.mk "123456" 100 99]).matchedDetails
        = [mkMatchedDetail Direction.IN "123456" (CardTx.mk "123456" 100)
            (P2PTx.mk "123456" 100 99)] := rfl
    exact fee_adjustment_rule.2.2 Direction.IN _ _ _
      (by rw [h]; exact List.mem_singleton.mpr rfl)

/-- Claim C2 (amended): the reported difference of a matched pair is
round(card − adjusted, 2) and the status test is applied to this rounded
value: OK exactly when its magnitude is below 0.01, DIFF otherwise.
Because rounding happens first, a raw card-minus-adjusted gap of 0.0099
rounds up to 0.01 and is reported DIFF (not OK); a gap of exactly 0.01
is DIFF; a gap of 0.0049 rounds to zero and is OK. -/
theorem status_threshold :
    (∀ (dir : Direction) (cards : List CardTx) (p2p : List P2PTx),
      ∀ d ∈ (reconcileTransactions dir cards p2p).matchedDetails,
        (d.status = "OK" ↔ |d.difference| < 1 / 100) ∧
        (d.status = "DIFF" ↔ 1 / 100 ≤ |d.difference|)) ∧
    (∀ (dir : Direction) (k : String) (c : CardTx) (p : P2PTx),
      (mkMatchedDetail dir k c p).difference = round2 (|c.montant| - p.adjusted)) ∧
    (∀ (dir : Direction) (k : String) (c : CardTx) (p : P2PTx),
      |c.montant| - p.adjusted = 99 / 10000 →
        (mkMatchedDetail dir k c p).status = "DIFF") ∧
    (∀ (dir : Direction) (k : String) (c : CardTx) (p : P2PTx),
      |c.montant| - p.adjusted = 1 / 100 →
        (mkMatchedDetail dir k c p).status = "DIFF") ∧
    (∀ (dir : Direction) (k : String) (c : CardTx) (p : P2PTx),
      |c.montant| - p.adjusted = 49 / 10000 →
        (mkMatchedDetail dir k c p).status = "OK") := by
  have habs : |(1 : ℚ) / 100| = 1 / 100 := abs_of_nonneg (by norm_num)
  refine ⟨?_, fun dir k c p => rfl, ?_, ?_, ?_⟩
  · intro dir cards p2p d hd
    rw [reconcile_eq_core, core_matchedDetails] at hd
    obtain ⟨x, _, rfl⟩ := List.mem_map.mp hd
    show ((if |round2 (|x.2.1.montant| - x.2.2.adjusted)| < 1 / 100
        then "OK" else "DIFF") = "OK" ↔ _) ∧
      ((if |round2 (|x.2.1.montant| - x.2.2.adjusted)| < 1 / 100
        then "OK" else "DIFF") = "DIFF" ↔ _)
    split
    · next hc =>
      exact ⟨iff_of_true rfl hc, iff_of_false (by decide) (not_le.mpr hc)⟩
    · next hc =>
      exact ⟨iff_of_false (by decide) hc, iff_of_true rfl (not_lt.mp hc)⟩
  · intro dir k c p h
    show (if |round2 (|c.montant| - p.adjusted)| < 1 / 100
        then "OK" else "DIFF") = "DIFF"
    rw [h]
    have h1 : round2 ((99 : ℚ) / 10000) = 1 / 100 := by
      norm_num [round2, round_eq]
    rw [h1, habs, if_neg (lt_irrefl _)]
  · intro dir k c p h
    show (if |round2 (|c.montant| - p.adjusted)| < 1 / 100
        then "OK" else "DIFF") = "DIFF"
    rw [h]
    have h1 : round2 ((1 : ℚ) / 100) = 1 / 100 := by
      norm_num [round2, round_eq]
    rw [h1, habs, if_neg (lt_irrefl _)]
  · intro dir k c p h
    show (if |round2 (|c.montant| - p.adjusted)| < 1 / 100
        then "OK" else "DIFF") = "OK"
    rw [h]
    have h1 : round2 ((49 : ℚ) / 10000) = 0 := by
      norm_num [round2, round_eq]
    rw [h1, abs_zero, if_pos (by norm_num)]

/-- Claim C2 counterexample: a matched pair whose raw card-minus-adjusted
gap is exactly 0.0099 (card 50.0099 against adjusted 50) is reported with
difference 0.01 and status DIFF, where the claim predicts OK. -/
theorem status_boundary_counterexample :
    |(CardTx.mk "100000" (500099 / 10000)).montant|
        - (P2PTx.mk "100000" 50 50).adjusted = 99 / 10000 ∧
    (reconcileTransactions Direction.IN [CardTx.mk "100000" (500099 / 10000)]
        [P2PTx.mk "100000" 50 50]).matchedDetails
      = [mkMatchedDetail Direction.IN "100000"
          (CardTx.mk "100000" (500099 / 10000)) (P2PTx.mk "100000" 50 50)] ∧
    (mkMatchedDetail Direction.IN "100000" (CardTx.mk "100000" (500099 / 10000))
        (P2PTx.mk "100000" 50 50)).difference = 1 / 100 ∧
    (mkMatchedDetail Direction.IN "100000" (CardTx.mk "100000" (500099 / 10000))
        (P2PTx.mk "100000" 50 50)).status = "DIFF" := by
  have habs : |(500099 : ℚ) / 10000| = 500099 / 10000 := abs_of_nonneg (by norm_num)
  refine ⟨?_, rfl, ?_, ?_⟩
  · show |(500099 : ℚ) / 10000| - 50 = 99 / 10000
    rw [habs]
    norm_num
  · show round2 (|(500099 : ℚ) / 10000| - 50) = 1 / 100
    rw [habs]
    norm_num [round2, round_eq]
  · have h2 : |(1 : ℚ) / 100| = 1 / 100 := abs_of_nonneg (by norm_num)
    show (if |round2 (|(500099 : ℚ) / 10000| - 50)| < 1 / 100
        then "OK" else "DIFF") = "DIFF"
    rw [habs]
    have h1 : round2 ((500099 : ℚ) / 10000 - 50) = 1 / 100 := by
      norm_num [round2, round_eq]
    rw [h1, h2, if_neg (lt_irrefl _)]

/-- Claim C2 witness: the amended status rule instantiated at concrete
pairs (the 100-versus-99 matched deposit, and raw gaps of 0.0099, 0.01
and 0.0049). -/
theorem status_threshold_witness :
    ((mkMatchedDetail Direction.IN "654321" (CardTx.mk "654321" 100)
        (P2PTx.mk "654321" 100 99)).status = "DIFF"
      ↔ 1 / 100 ≤ |(mkMatchedDetail Direction.IN "654321" (CardTx.mk "654321" 100)
        (P2PTx.mk "654321" 100 99)).difference|) ∧
    (mkMatchedDetail Direction.IN "220000" (CardTx.mk "220000" (600099 / 10000))
        (P2PTx.mk "220000" 60 60)).status = "DIFF" ∧
    (mkMatchedDetail Direction.IN "220001" (CardTx.mk "220001" (6001 / 100))
        (P2PTx.mk "220001" 60 60)).status = "DIFF" ∧
    (mkMatchedDetail Direction.IN "220002" (CardTx.mk "220002" (600049 / 10000))
        (P2PTx.mk "220002" 60 60)).status = "OK" := by
  refine ⟨?_, ?_, ?_, ?_⟩
  · have h : (reconcileTransactions Direction.IN [CardTx.mk "654321" 100]
        [P2PTx.mk "654321" 100 99]).matchedDetails
        = [mkMatchedDetail Direction.IN "654321" (CardTx.mk "654321" 100)
            (P2PTx.mk "654321" 100 99)] := rfl
    exact (status_threshold.1 Direction.IN _ _ _
      (by rw [h]; exact List.mem_singleton.mpr rfl)).2
  · refine status_threshold.2.2.1 Direction.IN "220000" _ _ ?_
    show |(600099 : ℚ) / 10000| - 60 = 99 / 10000
    rw [abs_of_nonneg (by norm_num : (0 : ℚ) ≤ 600099 / 10000)]
    norm_num
  · refine status_threshold.2.2.2.1 Direction.IN "220001" _ _ ?_
    show |(6001 : ℚ) / 100| - 60 = 1 / 100
    rw [abs_of_nonneg (by norm_num : (0 : ℚ) ≤ 6001 / 100)]
    norm_num
  · refine status_threshold.2.2.2.2 Direction.IN "220002" _ _ ?_
    show |(600049 : ℚ) / 10000| - 60 = 49 / 10000
    rw [abs_of_nonneg (by norm_num : (0 : ℚ) ≤ 600049 / 10000)]
    norm_num

/-- Claim C5: the numeric artifact "123456.0" on the statement side
normalizes to "123456", which equals the ledger-extracted auth key, the
two land in the matched key set and produce a matched pair; a missing
statement auth value becomes the empty string, never the text nan. -/
theorem auth_key_round_trip :
    normalizeStatementAuth (some "123456.0") = "123456" ∧
    extractAuth "Transfert du 07/02 123456" = some "123456" ∧
    normalizeStatementAuth (some "123456.0")
      = (extractAuth "Transfert du 07/02 123456").getD "nan" ∧
    "123456" ∈ matchedKeys
        (cardKeySet [CardTx.mk
          ((extractAuth "Transfert du 07/02 123456").getD "nan") 100])
        (p2pKeySet [P2PTx.mk (normalizeStatementAuth (some "123456.0")) 100 99]) ∧
    (reconcileTransactions Direction.IN
        [CardTx.mk ((extractAuth "Transfert du 07/02 123456").getD "nan") 100]
        [P2PTx.mk (normalizeStatementAuth (some "123456.0")) 100 99]).summary.matched
      = 1 ∧
    normalizeStatementAuth none = "" ∧
    normalizeStatementAuth none ≠ "nan" := by
  exact ⟨by decide, by decide, by decide, by decide, by decide, rfl, by decide⟩

lemma le_takeWhile_length_iff {α : Type} (p : α → Bool) :
    ∀ (n : Nat) (l : List α),
      n ≤ (l.takeWhile p).length ↔ ((l.take n).length = n ∧ (l.take n).all p) := by
  intro n
  induction n with
  | zero => intro l; simp
  | succ n ih =>
    intro l
    cases l with
    | nil => simp
    | cons a t =>
      by_cases hp : p a
      · simp only [List.takeWhile_cons, hp, if_true, List.length_cons,
          Nat.succ_le_succ_iff, List.take_succ_cons, List.all_cons,
          Nat.succ_inj, Bool.and_eq_true]
        rw [ih t]
        simp [hp]
      · simp [List.takeWhile_cons, hp]

lemma trailingDigits_six_iff (s : String) :
    6 ≤ trailingDigits s
      ↔ ((s.data.reverse.take 6).length = 6
          ∧ (s.data.reverse.take 6).all Char.isDigit) :=
  le_takeWhile_length_iff Char.isDigit 6 s.data.reverse

lemma extractAuth_ne_nan {s t : String} (h : extractAuth s = some t) : t ≠ "nan" := by
  intro hnan
  subst hnan
  simp only [extractAuth] at h
  split at h
  · next hc =>
    have hd : (s.data.reverse.take 6).reverse = "nan".data := by
      injection h with h2
      exact congrArg String.data h2
    have hlen := congrArg List.length hd
    simp [hc.1] at hlen
  · cases h

/-- Claim C6 (amended): the ledger auth code is extracted exactly when
the label ends in at least six digit characters, and the code is then the
last six characters of the label (the tail of a longer trailing digit run
still matches); fewer than six trailing digits yield no code, and absence
is an ordinary value, not an error. -/
theorem auth_extraction :
    ∀ s : String,
      (6 ≤ trailingDigits s → extractAuth s = some (lastChars 6 s)) ∧
      (trailingDigits s < 6 → extractAuth s = none) ∧
      (∀ c, extractAuth s = some c →
        c = lastChars 6 s ∧ c.data.length = 6 ∧ c.data.all Char.isDigit) := by
  intro s
  refine ⟨?_, ?_, ?_⟩
  · intro h
    rw [trailingDigits_six_iff] at h
    unfold extractAuth
    rw [if_pos h]
    rfl
  · intro h
    unfold extractAuth
    rw [if_neg]
    intro hc
    exact absurd ((trailingDigits_six_iff s).mpr hc) (not_le.mpr h)
  · intro c hc
    simp only [extractAuth] at hc
    split at hc
    · next hcond =>
      injection hc with h2
      refine ⟨h2.symm, ?_, ?_⟩
      · rw [← h2]
        show ((s.data.reverse.take 6).reverse).length = 6
        rw [List.length_reverse]
        exact hcond.1
      · rw [← h2]
        show ((s.data.reverse.take 6).reverse).all Char.isDigit = true
        rw [List.all_reverse]
        exact hcond.2
    · cases hc

/-- Claim C6 counterexample: the label below ends in a run of seven
digits, so by the claim no auth code should be extracted; the source
extraction nevertheless succeeds and captures the last six digits. -/
theorem auth_extraction_counterexample :
    trailingDigits "Transfert du 1234567" = 7 ∧
    extractAuth "Transfert du 1234567" = some "234567" ∧
    trailingDigits "Transfert du 1234567" ≠ 6 := by
  exact ⟨by decide, by decide, by decide⟩

/-- Claim C6 witness: the amended extraction rule at a label with exactly
six trailing digits and at a label with none. -/
theorem auth_extraction_witness :
    extractAuth "Transfert du 123456" = some (lastChars 6 "Transfert du 123456") ∧
    extractAuth "Solde du mois" = none :=
  ⟨(auth_extraction "Transfert du 123456").1 (by decide),
   (auth_extraction "Solde du mois").2.1 (by decide)⟩

/-- Claim C8: the source treats most optional columns gracefully (a
ledger frame without LIBELLE classifies to an empty IN subset), but the
statement-side Auth column read at line 206 is unguarded: a statement
frame without an Auth column whose rows survive the type and date filters
raises a KeyError instead of degrading, contradicting the stated
column-absence contract. -/
theorem missing_column_behavior :
    getInTransactionsP2P
        ⟨[⟨"DEPOSIT", 5, 100, "", none⟩], true, true, false, false⟩ 0
      = Except.error "KeyError: Auth" ∧
    getInTransactionsCard ⟨[⟨5, 100, "Transfert du 123456"⟩], false⟩ 0 = [] :=
  ⟨rfl, rfl⟩

lemma missPDetails_filter_count (cards : List CardTx) (p2p : List P2PTx)
    (k0 : String) :
    ((missPDetails cards p2p).filter (fun d => d.key == k0)).length
      = (missPList cards p2p).count k0 := by
  rw [← List.countP_eq_length_filter]
  conv_rhs => rw [← missPDetails_map_key cards p2p]
  rw [show ((missPDetails cards p2p).map MissingDetail.key).count k0
      = ((missPDetails cards p2p).map MissingDetail.key).countP (fun x => x == k0)
    from rfl]
  rw [List.countP_map]
  rfl

/-- Claim C10: a classified ledger IN row carries the key nan exactly
when its label yields no extracted code; since such keys collapse into
one set member, the missing-in-statement details contain at most one
nan-keyed row, and exactly one when some no-code row is present and the
statement side (whose normalized auth values are never the text nan)
carries no nan key. -/
theorem nan_key_collapse :
    (∀ (df : CardDF) (fromDate : ℤ), ∀ r ∈ getInTransactionsCard df fromDate,
      (extractAuth r.libelle = none ↔ r.auth = "nan")) ∧
    (∀ (cards : List CardTx) (p2p : List P2PTx),
      ((reconcileTransactions Direction.IN cards p2p).missingInP2P.filter
          (fun d => d.key == "nan")).length ≤ 1) ∧
    (∀ (cards : List CardTx) (p2p : List P2PTx),
      "nan" ∈ cards.map CardTx.key → "nan" ∉ p2p.map P2PTx.key →
      ((reconcileTransactions Direction.IN cards p2p).missingInP2P.filter
          (fun d => d.key == "nan")).length = 1) := by
  refine ⟨?_, ?_, ?_⟩
  · intro df fromDate r hr
    obtain ⟨rows0, hl⟩ := df
    simp only [getInTransactionsCard] at hr
    cases hl <;> simp only [Bool.false_eq_true, reduceIte] at hr
    · cases hr
    · obtain ⟨r0, hmem, rfl⟩ := List.mem_map.mp hr
      show extractAuth r0.libelle = none ↔ (extractAuth r0.libelle).getD "nan" = "nan"
      constructor
      · intro h
        rw [h]
        rfl
      · intro h
        cases heq : extractAuth r0.libelle with
        | none => rfl
        | some t =>
          rw [heq] at h
          exact absurd h (extractAuth_ne_nan heq)
  · intro cards p2p
    rw [reconcile_eq_core, core_missingInP2P, missPDetails_filter_count]
    exact List.nodup_iff_count_le_one.mp (missPList_nodup cards p2p) "nan"
  · intro cards p2p h1 h2
    rw [reconcile_eq_core, core_missingInP2P, missPDetails_filter_count]
    refine List.count_eq_one_of_mem (missPList_nodup cards p2p) ?_
    refine mem_missPList.mpr ⟨List.mem_dedup.mpr h1, fun hc => h2 ?_⟩
    exact List.mem_dedup.mp hc

/-- Claim C10 witness: a label with no trailing code extracts nothing
(so the classified row gets the key nan), and a ledger with two nan-keyed
rows against a statement without that key surfaces exactly one
missing-in-statement detail row. -/
theorem nan_key_collapse_witness :
    extractAuth "Transfert du pas de code" = none ∧
    ((reconcileTransactions Direction.IN [CardTx.mk "nan" 30, CardTx.mk "nan" 40]
        [P2PTx.mk "123456" 10 10]).missingInP2P.filter
        (fun d => d.key == "nan")).length = 1 := by
  constructor
  · have h : getInTransactionsCard ⟨[⟨5, 50, "Transfert du pas de code"⟩], true⟩ 0
        = [⟨5, 50, "Transfert du pas de code",
            (extractAuth "Transfert du pas de code").getD "nan"⟩] := rfl
    exact (nan_key_collapse.1 _ 0 _
      (by rw [h]; exact List.mem_singleton.mpr rfl)).mpr (by decide)
  · exact nan_key_collapse.2.2 _ _ (by decide) (by decide)

end Recon
